import Mathlib

/-!
Davis weather-station bridge (`davis.c`): a shallow embedding.

The definitions below follow the functions of `davis.c`.  Bytes are natural
numbers in the range 0..255, C `int`/`time_t` quantities are integers, and the
operating-system calls the program makes (reads, writes, waits, re-opening the
serial port) take their results from scripts carried in the program state.
-/

namespace Davis

/-! ## CRC engine (`checkCRC`, with the table of `ccitt.h`) -/

/-- One shift step of the CCITT CRC-16 (polynomial 0x1021) on a 16-bit register. -/
def crcShift (x : Nat) : Nat :=
  if x &&& 0x8000 ≠ 0 then ((x <<< 1) ^^^ 0x1021) &&& 0xFFFF else (x <<< 1) &&& 0xFFFF

/-- Modelled from the spec: the header `ccitt.h`, which holds the 256-entry table
`crc_table`, is not among the sources.  The spec calls it the precomputed table of the
CCITT polynomial; entry `i` of that standard table is the register reached from
`i << 8` after eight shift steps with polynomial 0x1021 (entry 1 is 0x1021, entry 255
is 0x1EF0). -/
def crc_table (i : Nat) : Nat := crcShift^[8] (i <<< 8)

/-- The body of the loop of `checkCRC`:
`crc = (crc_table[(crc >> 8) ^ *msg++] ^ (crc << 8)) & 0xFFFF`. -/
def crcStep (crc b : Nat) : Nat :=
  (crc_table ((crc >>> 8) ^^^ b) ^^^ (crc <<< 8)) &&& 0xFFFF

/-- The function `int checkCRC(int size, char *msg)`: the CRC of the first `size` bytes at `msg`,
starting from a zero checksum.  The bytes at `msg` are given as a list of unsigned
values 0..255 (`char` is unsigned on the ARM target of the program). -/
def checkCRC (size : Nat) (msg : List Nat) : Nat :=
  (msg.take size).foldl crcStep 0

/-! ## Poll scheduler (`timeMod`) -/

/-- Conversion to `time_t` (64 bits, two's complement): the value that arithmetic in
`time_t` leaves when the exact result is out of range. -/
def toTimeT (x : Int) : Int := (x + 2 ^ 63) % 2 ^ 64 - 2 ^ 63

/-- The function `time_t timeMod(time_t t)`, with the value `now` that `time(NULL)`
returns made a parameter: `if (t == 0) t = 600; return (time(NULL) / t) * t + t;`.  The
division is C's truncating division; the product and the sum are computed in `time_t`. -/
def timeMod (now t : Int) : Int :=
  let t := if t = 0 then 600 else t
  toTimeT (toTimeT (now.tdiv t * t) + t)

/-! ## Constants, program state and environment -/

/-- The acknowledgement marker, `#define ACK 0x06`. -/
def ACK : Nat := 0x06

/-- The declared size of `data.buf`, `#define BUFSIZE 4100`. -/
def BUFSIZE : Nat := 4100

/-- The socket retry budget, `#define NUMRETRIES 3`. -/
def NUMRETRIES : Nat := 3

/-- The serial write retry budget, `#define SERIALNUMRETRIES 10`. -/
def SERIALNUMRETRIES : Nat := 10

/-- The initial value of `tmout`, `#define REALTIMEINTERVAL 300`. -/
def REALTIMEINTERVAL : Int := 300

/-- Severity `INFO` of `logmsg`. -/
def INFO : Nat := 0

/-- Severity `WARN` of `logmsg`. -/
def WARN : Nat := 1

/-- Severity `ERROR` of `logmsg`. -/
def ERROR : Nat := 2

/-- The bytes of a C string literal, without the terminating NUL. -/
def ofString (s : String) : List Nat := s.toList.map Char.toNat

/-- The messages the program passes to `logmsg`, one constructor per message text. -/
inductive Msg where
  /-- Text "WARN Davis Failed to read length from socket" -/
  | failedLength
  /-- Text "WARN Davis Timed out reading from server" -/
  | timedOutServer
  /-- Text "INFO Davis Truncated log file" -/
  | truncated
  /-- Text "INFO Davis Log file not truncated as it is not open" -/
  | notTruncated
  /-- Text "INFO: Available commands are exit; truncate; debug 0|1; interval; hilow; graph; loop" -/
  | help
  /-- Text "INFO Davis written file /tmp/davis.dat" -/
  | writtenFile
  /-- Text "INFO Davis Interval set to %d seconds" with the value printed -/
  | intervalSet (tmout : Int)
  /-- Text "INFO Davis Unknown message from server: " followed by the text received -/
  | unknownMessage (text : List Nat)
  /-- Text "WARN Davis timed out writing to serial port" -/
  | serialWriteTimeout
  /-- Text "WARN Davis no data for last period .. reopening port" -/
  | noData
  /-- Text "ERROR Davis %d Failed to re-open %s: %s" -/
  | reopenFailed
  /-- Text "WARN Davis Failed to open /tmp/davis.dat" -/
  | dumpOpenFailed
  /-- Text "INFO Davis Data ..." of `writepacket`, for the packet at the given bytes -/
  | packet (bytes : List Nat)
  deriving DecidableEq

/-- What the serial link presents at one wait (`select`) followed by a read. -/
inductive SerialEv where
  /-- the wait ends with nothing to read (`select` returns 0) -/
  | timeout
  /-- a byte is ready and a read takes it -/
  | byte (b : Nat)
  /-- the descriptor is ready but the read returns 0; re-opening then gives `fd` -/
  | zero (fd : Int)
  /-- the descriptor is ready but the read fails (returns -1) -/
  | err
  deriving DecidableEq

/-- The serial buffer `struct data`: `count` and the bytes of `buf`, as a map from
offsets to bytes.  The array is declared with `BUFSIZE` bytes; an offset at or above
`BUFSIZE` stands for the memory that follows the array. -/
structure Data where
  count : Int
  buf : Int → Nat

/-- The globals of `davis.c` that the modelled functions use, the scripts from which
the system calls take their results, and the record of what the program emitted. -/
structure St where
  /-- the global `data` -/
  data : Data
  /-- the global `commfd` -/
  commfd : Int
  /-- the global `tmout`, the poll interval in seconds -/
  tmout : Int
  /-- the global `debug` -/
  debug : Int
  /-- whether the global `logfp` is an open file -/
  logfp : Bool
  /-- the global `sockfd[0]` -/
  sockfd : Int
  /-- what the serial link presents at successive waits; once used up the link is
  silent (every further wait times out) -/
  serialIn : List SerialEv
  /-- results of successive `write` calls on the serial link; once used up every
  write is accepted whole -/
  serialWr : List Int
  /-- chunks of bytes arriving on the socket, in order; once used up a read returns 0 -/
  sockIn : List (List Nat)
  /-- results of successive `openSerial` calls of the reconnection loop -/
  openRes : List Int
  /-- whether `fopen` of the dump file succeeds -/
  dumpOpens : Bool
  /-- the C string found in the local `buffer` of `processSocket` on entry, before the
  call has written to it (the array is not initialised) -/
  buffer0 : List Nat
  /-- the buffers passed to `write` on the serial link, one per call -/
  serialReq : List (List Nat)
  /-- the bytes the serial link accepted, in order -/
  sent : List Nat
  /-- number of `read` calls made on the socket -/
  sockReads : Nat
  /-- the calls of `logmsg`: severity and message -/
  log : List (Nat × Msg)
  /-- the byte sequences passed to `writev` on the upstream socket, one per call -/
  upstream : List (List Nat)
  /-- the byte sequences written to the dump file by `dumphex`, one per dump -/
  dumps : List (List Nat)

/-- The state at the start of the main loop, with empty scripts: `tmout` is
`REALTIMEINTERVAL`, `debug` is off, the log file is open and both descriptors are open. -/
def St.init : St :=
  { data := { count := 0, buf := fun _ => 0 }, commfd := 3, tmout := REALTIMEINTERVAL,
    debug := 0, logfp := true, sockfd := 4, serialIn := [], serialWr := [], sockIn := [],
    openRes := [], dumpOpens := true, buffer0 := [], serialReq := [], sent := [],
    sockReads := 0,
    log := [], upstream := [], dumps := [] }

/-- The call `logmsg(severity, text)` of the logging collaborator, recorded in `log`. -/
def logmsg (sev : Nat) (m : Msg) (s : St) : St :=
  { s with log := s.log ++ [(sev, m)] }

/-- The `n` bytes found at offset `off` of a buffer (`buf + off`). -/
def bytesAt (buf : Int → Nat) (off : Int) (n : Nat) : List Nat :=
  (List.range n).map fun i => buf (off + i)

/-- Conversion of an `int` to `size_t` (64 bits), as in the comparison `written < len`
and in the count argument of `read`. -/
def toSizeT (x : Int) : Int := x % 2 ^ 64

/-- Conversion to `short int` (16 bits, two's complement). -/
def toShort (x : Int) : Int := (x + 32768) % 65536 - 32768

/-- Conversion to `int` (32 bits, two's complement). -/
def toInt32 (x : Int) : Int := (x + 2 ^ 31) % 2 ^ 32 - 2 ^ 31

/-- The functions `htons`/`ntohs` on a little-endian host: the two bytes of a 16-bit value swapped. -/
def htons (x : Nat) : Nat := (x % 256) * 256 + (x / 256) % 256

/-- The bytes of an `int` in memory on a little-endian host. -/
def intBytes (x : Nat) : List Nat :=
  [x % 256, (x / 256) % 256, (x / 65536) % 256, (x / 16777216) % 256]

/-! ## Device link: `sendSerial`, `getbuf`, `wakeup` -/

/-- The call `write(fd, data, len)` on the serial link: the next scripted result `r`; the link
accepts the first `r` bytes of `data` (none when `r` is negative). -/
def serialWrite (data : List Nat) (s : St) : Int × St :=
  match s.serialWr with
  | [] => (data.length, { s with serialReq := s.serialReq ++ [data], sent := s.sent ++ data })
  | r :: rest =>
    (r, { s with serialWr := rest, serialReq := s.serialReq ++ [data],
                 sent := s.sent ++ data.take r.toNat })

/-- The loop of `sendSerial`; `more` is the value of `retries` after the next
decrement `--retries`:
`while ((written = write(fd, data, len)) < len) { if (--retries == 0) { logmsg(WARN, ...);
return 1; } usleep(...); } return 0;`.  `written` is an `int` and `len` a `size_t`, so
the comparison is made after converting `written` to `size_t`. -/
def sendSerialLoop (data : List Nat) : Nat → St → Int × St
  | more, s =>
    let w := serialWrite data s
    if toSizeT w.1 < data.length then
      match more with
      | 0 => (1, logmsg WARN Msg.serialWriteTimeout w.2)
      | m + 1 => sendSerialLoop data m w.2
    else (0, w.2)

/-- The function `int sendSerial(int fd, char *data)`: `retries` starts at `SERIALNUMRETRIES`. -/
def sendSerial (data : List Nat) (s : St) : Int × St :=
  sendSerialLoop data (SERIALNUMRETRIES - 1) s

/-- The effect of `now = read(commfd, data.buf + data.count, 1); data.count += now;`
when the read delivers the byte `b`. -/
def storeByte (b : Nat) (s : St) : St :=
  { s with data := { count := s.data.count + 1,
                     buf := fun i => if i = s.data.count then b else s.data.buf i } }

/-- The loop of `getbuf` over what the link presents, with the local `numtoread`.
A wait that times out returns `data.count`; a failed read returns its result; a read
of zero bytes re-opens the port and goes on; a byte is stored at
`data.buf[data.count]`, `data.count` is incremented, `numtoread` decremented and the
loop returns `data.count` when `numtoread` reaches 0 or falls below. -/
def getbufLoop (numtoread : Int) : List SerialEv → St → Int × St
  | [], s => (s.data.count, { s with serialIn := [] })
  | SerialEv.timeout :: rest, s => (s.data.count, { s with serialIn := rest })
  | SerialEv.err :: rest, s => (-1, { s with serialIn := rest })
  | SerialEv.zero fd :: rest, s => getbufLoop numtoread rest { s with commfd := fd }
  | SerialEv.byte b :: rest, s =>
    if numtoread - 1 = 0 then ((storeByte b s).data.count, { storeByte b s with serialIn := rest })
    else if numtoread - 1 < 0 then
      ((storeByte b s).data.count, { storeByte b s with serialIn := rest })
    else getbufLoop (numtoread - 1) rest (storeByte b s)

/-- The function `int getbuf(int max, int tmout)`: `numtoread = max`, then the loop.  The deadline
`tmout` decides which waits time out, which the script records. -/
def getbuf (max _tmout : Int) (s : St) : Int × St :=
  getbufLoop max s.serialIn s

/-- The call `read(commfd, buf, 2)` in `wakeup`, made when the descriptor is ready: the result
and what the link presents afterwards. -/
def wakeupRead : List SerialEv → Int × List SerialEv
  | SerialEv.byte _ :: SerialEv.byte _ :: rest => (2, rest)
  | SerialEv.byte _ :: rest => (1, rest)
  | SerialEv.zero _ :: rest => (0, rest)
  | SerialEv.err :: rest => (-1, rest)
  | SerialEv.timeout :: rest => (0, rest)
  | [] => (0, [])

/-- The loop `for (i = 1; i < 3; i++)` of `wakeup`, with the number of rounds left:
send a newline, wait up to 1.5 s, and return 0 when a read of 2 bytes gives 2. -/
def wakeupLoop : Nat → St → Int × St
  | 0, s => (1, s)
  | n + 1, s =>
    let s1 := (sendSerial [10] s).2
    match s1.serialIn with
    | [] => wakeupLoop n s1
    | SerialEv.timeout :: rest => wakeupLoop n { s1 with serialIn := rest }
    | evs =>
      let r := wakeupRead evs
      if r.1 = 2 then (0, { s1 with serialIn := r.2 })
      else wakeupLoop n { s1 with serialIn := r.2 }

/-- The function `int wakeup(int commfd)`: two rounds. -/
def wakeup (s : St) : Int × St := wakeupLoop 2 s

/-- The function `dumphex(n, data)`: when the dump file opens, the `n` bytes are written to it;
otherwise a warning is logged. -/
def dumphex (n : Nat) (bytes : Int → Nat) (off : Int) (s : St) : St :=
  if s.dumpOpens then { s with dumps := s.dumps ++ [bytesAt bytes off n] }
  else logmsg WARN Msg.dumpOpenFailed s

/-! ## Command channel: `processSocket` -/

/-- One `read(sockfd[0], buf, n)` with the count `n` converted to `size_t`.  A count
above `SSIZE_MAX` (a negative `n`) makes the read fail (result -1, here `none`) with
nothing taken from the socket, as Linux does.  Otherwise the read delivers up to `n`
bytes of the first chunk still waiting on the socket, and what is left of the chunk
stays for the next read; with nothing waiting the read returns 0 bytes. -/
def sockRead (n : Int) (s : St) : Option (List Nat) × St :=
  if 2 ^ 63 ≤ toSizeT n then (none, { s with sockReads := s.sockReads + 1 })
  else
    match s.sockIn with
    | [] => (some [], { s with sockReads := s.sockReads + 1 })
    | c :: rest =>
      if c.length ≤ (toSizeT n).toNat then
        (some c, { s with sockIn := rest, sockReads := s.sockReads + 1 })
      else
        (some (c.take (toSizeT n).toNat),
          { s with sockIn := c.drop (toSizeT n).toNat :: rest, sockReads := s.sockReads + 1 })

/-- The size declared for the local `buffer` of `processSocket`, `char buffer[128]`. -/
def bufferSize : Nat := 128

/-- The result of reading one frame from the socket. -/
inductive Frame where
  /-- the 2-byte length could not be read -/
  | noLength
  /-- the retries of the payload loop were spent -/
  | timedOut
  /-- the payload loop was left; the bytes of `buffer` before the terminating NUL -/
  | payload (buffer : List Nat)
  /-- a read or the terminating NUL went beyond the 128 bytes of `buffer`, or no NUL
  lies within them: the stack of the function is overrun and what the program does
  from there on is not defined -/
  | overrun
  deriving DecidableEq

/-- The payload loop of `processSocket`, with the bytes stored so far between `buffer`
and `cp`, the local `msglen`, and `more`, the value of `retries` after the next
decrement:
`while ((numread = read(sockfd[0], cp, msglen)) < msglen) { cp += numread;
msglen -= numread; if (--retries == 0) { logmsg(WARN, ...); return 1; } usleep(...); }`
followed by `cp[numread] = 0`.  A read that stores bytes beyond `buffer[127]`, or a
NUL stored at `buffer[128]` or beyond, overruns the buffer.  A read fails only for a
negative `msglen`, and then -1 is not below `msglen`: the loop is left with
`numread = -1`, the NUL goes to `cp[-1]`, and `buffer` holds the bytes stored before
that place or, when nothing was stored, what it held on entry (the NUL then falls in
the byte below `buffer`). -/
def readPayload : Nat → List Nat → Int → St → Frame × St
  | more, acc, msglen, s =>
    let r := sockRead msglen s
    match r.1 with
    | none =>
      if -1 < msglen then
        match more with
        | 0 => (Frame.timedOut, logmsg WARN Msg.timedOutServer r.2)
        | m + 1 =>
          if acc = [] then (Frame.overrun, r.2)
          else readPayload m acc.dropLast (toShort (msglen + 1)) r.2
      else if acc = [] then
        (if s.buffer0.length < bufferSize then Frame.payload s.buffer0 else Frame.overrun, r.2)
      else (Frame.payload acc.dropLast, r.2)
    | some bytes =>
      if bufferSize < acc.length + bytes.length then (Frame.overrun, r.2)
      else if toShort bytes.length < msglen then
        match more with
        | 0 => (Frame.timedOut, logmsg WARN Msg.timedOutServer r.2)
        | m + 1 => readPayload m (acc ++ bytes) (toShort (msglen - toShort bytes.length)) r.2
      else if acc.length + bytes.length < bufferSize then (Frame.payload (acc ++ bytes), r.2)
      else (Frame.overrun, r.2)

/-- The first part of `processSocket`: `read(sockfd[0], &msglen, 2)`, the conversion
`msglen = ntohs(msglen)` into a `short`, and the payload loop with
`retries = NUMRETRIES`. -/
def readFrame (s : St) : Frame × St :=
  let r := sockRead 2 s
  match r.1 with
  | some [b0, b1] => readPayload (NUMRETRIES - 1) [] (toShort (htons (b0 + 256 * b1))) r.2
  | _ => (Frame.noLength, logmsg WARN Msg.failedLength r.2)

/-- The C string at the start of a buffer: its bytes before the first NUL. -/
def cstr (buffer : List Nat) : List Nat := buffer.takeWhile fun c => c ≠ 0

/-- The function `tolower` on ASCII. -/
def tolower (c : Nat) : Nat := if 65 ≤ c ∧ c ≤ 90 then c + 32 else c

/-- Whether `strcasecmp(a, b) == 0`. -/
def strcasecmp0 (a b : List Nat) : Bool :=
  (cstr a).map tolower == (cstr b).map tolower

/-- Whether `strncasecmp(a, b, n) == 0`. -/
def strncasecmp0 (a b : List Nat) (n : Nat) : Bool :=
  ((cstr a).take n).map tolower == ((cstr b).take n).map tolower

/-- The function `isspace` in the C locale. -/
def isspace (c : Nat) : Bool := c = 32 ∨ (9 ≤ c ∧ c ≤ 13)

/-- The value of a character as a digit, up to base 36. -/
def digitVal (c : Nat) : Option Nat :=
  if 48 ≤ c ∧ c ≤ 57 then some (c - 48)
  else if 97 ≤ c ∧ c ≤ 122 then some (c - 87)
  else if 65 ≤ c ∧ c ≤ 90 then some (c - 55)
  else none

/-- The digits of `strtol`: the value of the longest run of digits below `base`. -/
def strtolDigits (base : Nat) : List Nat → Nat → Nat
  | [], acc => acc
  | c :: rest, acc =>
    match digitVal c with
    | some d => if d < base then strtolDigits base rest (acc * base + d) else acc
    | none => acc

/-- Whether the text starts with a hexadecimal digit. -/
def startsHex (t : List Nat) : Bool :=
  match t with
  | [] => false
  | c :: _ =>
    match digitVal c with
    | some d => d < 16
    | none => false

/-- The call `strtol(text, NULL, 0)` on the C string `text`: white space is skipped, a sign is
read, the base is 16 after `0x`, 8 after `0` and 10 otherwise, and the value is kept
within the range of `long` (64 bits). -/
def strtol0 (text : List Nat) : Int :=
  let t := (cstr text).dropWhile isspace
  let neg := t.head? = some 45
  let t := if t.head? = some 45 ∨ t.head? = some 43 then t.tail else t
  let v : Nat :=
    match t with
    | 48 :: x :: r =>
      if (x = 120 ∨ x = 88) ∧ startsHex r then strtolDigits 16 r 0
      else strtolDigits 8 (x :: r) 0
    | _ => strtolDigits 10 t 0
  if neg then max (-(v : Int)) (-(2 ^ 63)) else min (v : Int) (2 ^ 63 - 1)

/-- The second part of `processSocket`: the dispatch on the NUL-terminated `buffer`.
The result is the value returned (0 to stop the main loop) and the new state. -/
def dispatch (buffer : List Nat) (s : St) : Int × St :=
  if strcasecmp0 buffer (ofString "exit") then (0, s)
  else if strcasecmp0 buffer (ofString "Ok") then (1, s)
  else if strcasecmp0 buffer (ofString "truncate") then
    if s.logfp then (1, logmsg INFO Msg.truncated s)
    else (1, logmsg INFO Msg.notTruncated s)
  else if strcasecmp0 buffer (ofString "debug 0") then (1, { s with debug := 0 })
  else if strcasecmp0 buffer (ofString "debug 1") then (1, { s with debug := 1 })
  else if strcasecmp0 buffer (ofString "help") ∨ (buffer ++ [0]).head? = some 63 then
    (1, logmsg INFO Msg.help s)
  else if strcasecmp0 buffer (ofString "hilow") then
    let s1 := (wakeup s).2
    let s2 := (sendSerial (ofString "HILOWS\n") s1).2
    let s3 := (getbuf 438 1000 s2).2
    (1, logmsg INFO Msg.writtenFile (dumphex 436 s3.data.buf 0 s3))
  else if strcasecmp0 buffer (ofString "graph") then
    let s1 := (wakeup s).2
    let s2 := (sendSerial (ofString "GETEE\n") s1).2
    let s3 := (getbuf 4098 1000 s2).2
    (1, logmsg INFO Msg.writtenFile (dumphex 4098 s3.data.buf 0 s3))
  else if strcasecmp0 buffer (ofString "loop") then
    let s1 := (wakeup s).2
    let s2 := (sendSerial (ofString "LOOP 1\n") s1).2
    let s3 := (getbuf 99 1000 s2).2
    (1, logmsg INFO Msg.writtenFile (dumphex 99 s3.data.buf 0 s3))
  else if strncasecmp0 buffer (ofString "interval ") 9 then
    let t := toInt32 (strtol0 (buffer.drop 9))
    let t := if t = 0 then 60 else t
    (1, logmsg INFO (Msg.intervalSet t) { s with tmout := t })
  else (1, logmsg INFO (Msg.unknownMessage (cstr buffer)) s)

/-- The function `int processSocket()`: read one frame and dispatch it; a frame that
cannot be read returns 1 after the warning logged by the read.  The result is `none`
when the read overruns `buffer`. -/
def processSocket (s : St) : Option (Int × St) :=
  let f := readFrame s
  match f.1 with
  | Frame.payload buffer => some (dispatch buffer f.2)
  | Frame.overrun => none
  | _ => some (1, f.2)

/-! ## Bridge loop: the poll branch of `main` -/

/-- The locals of `main` that the poll branch uses. -/
structure Loop where
  /-- the flag `online` -/
  online : Int
  /-- the time of the next real-time collection -/
  nextRealTime : Int

/-- The report passed to `writev`: the first 2 bytes of the `int length = htons(15 + 97)`,
the 15 bytes of "davis realtime" with its NUL, and the 97 bytes at `data.buf + 1`. -/
def report (buf : Int → Nat) : List Nat :=
  (intBytes (htons (15 + 97))).take 2 ++ (ofString "davis realtime" ++ [0]).take 15 ++
    bytesAt buf 1 97

/-- The tolerant read of a poll cycle: `data.count = 0; getbuf(100, 2000);`. -/
def pollRead (s : St) : St :=
  (getbuf 100 2000 { s with data := { s.data with count := 0 } }).2

/-- The branch of `main` taken when the wait for the device response reports data:
the tolerant read, then the three checks, each leaving by `continue` (result `true`),
then the `writev` when `sockfd[0]` is set and, with `debug` on, the dump and the
summary line. -/
def pollReady (s : St) : Bool × St :=
  let s1 := pollRead s
  if s1.data.count ≠ 100 then (true, s1)
  else if s1.data.buf 0 ≠ ACK then (true, s1)
  else if checkCRC 99 (bytesAt s1.data.buf 1 99) ≠ 0 then (true, s1)
  else
    let s2 := if s1.sockfd ≠ 0 then { s1 with upstream := s1.upstream ++ [report s1.data.buf] }
              else s1
    if s2.debug ≠ 0 then
      (false, logmsg INFO (Msg.packet (bytesAt s2.data.buf 1 99)) (dumphex 99 s2.data.buf 1 s2))
    else (false, s2)

/-- The loop `do { close(commfd); sleep(10); if ((commfd = openSerial(...)) < 0)
{ logmsg(ERROR, ...); sleep(150); } } while (commfd < 0);` over the results of
`openSerial`; `none` when the results run out before one succeeds. -/
def reopenLoop : List Int → St → Option St
  | [], _ => none
  | r :: rest, s =>
    if r < 0 then reopenLoop rest (logmsg ERROR Msg.reopenFailed { s with commfd := r })
    else some { s with commfd := r, openRes := rest }

/-- The branch of `main` taken when the wait for the device response times out:
when `online`, the warning, `online = 0` and the re-open loop. -/
def pollTimeout (l : Loop) (s : St) : Option (Loop × St) :=
  if l.online ≠ 0 then
    (reopenLoop s.openRes (logmsg WARN Msg.noData s)).map fun s1 => ({ l with online := 0 }, s1)
  else some (l, s)

/-- The state after `wakeup(commfd); sendSerial(commfd, "LOOP 1\n");`, the start of a
poll cycle. -/
def pollStart (s : St) : St :=
  (sendSerial (ofString "LOOP 1\n") (wakeup s).2).2

/-- One poll cycle of `main` (the body of `if (time(NULL) >= nextRealTime)`), given
the result `n` of the wait for the device response and the time `now` read by
`timeMod`: the wake-up and the `LOOP 1` command, then the branch for `n`, then
`nextRealTime = timeMod(tmout)` unless a check left by `continue`. -/
def pollCycle (n now : Int) (l : Loop) (s : St) : Option (Loop × St) :=
  let s0 := pollStart s
  if n ≠ 0 then
    let r := pollReady s0
    if r.1 then some ({ l with online := 1 }, r.2)
    else some ({ online := 1, nextRealTime := timeMod now r.2.tmout }, r.2)
  else
    (pollTimeout l s0).map fun p =>
      ({ p.1 with nextRealTime := timeMod now p.2.tmout }, p.2)

/-! ## Packet decoder: `mins2hhmm`, `stormstart` -/

/-- The decimal digits of a number, as characters. -/
def decimal (n : Nat) : List Nat := (Nat.toDigits 10 n).map Char.toNat

/-- The conversion `%02d` of `sprintf`: the decimal digits, after a minus sign for a
negative value, padded on the left with zeros to 2 characters. -/
def fmt02d (v : Int) : List Nat :=
  if v < 0 then 45 :: decimal (-v).toNat
  else List.replicate (2 - (decimal v.toNat).length) 48 ++ decimal v.toNat

/-- The function `char * mins2hhmm(int x)`, as the C string it leaves in `res`:
`if (x == 0xFFFF) res[0] = 0; else sprintf(res, "%02d:%02d", x / 100, x % 100);`, with
C's truncating division and remainder.  The 8 bytes declared for `res` are not a limit
here. -/
def mins2hhmm (x : Int) : List Nat :=
  if x = 0xFFFF then [] else fmt02d (x.tdiv 100) ++ [58] ++ fmt02d (x.tmod 100)

/-- The macro `makeshort(lsb, msb)`, which is `(lsb | (msb << 8))`. -/
def makeshort (lsb msb : Nat) : Nat := lsb ||| (msb <<< 8)

/-- The two time texts of `writepacket`, `mins2hhmm(makeshort(data[91], data[92]))` and
`mins2hhmm(makeshort(data[93], data[94]))`, for the packet bytes `data`. -/
def writepacketTimes (data : Nat → Nat) : List Nat × List Nat :=
  (mins2hhmm (makeshort (data 91) (data 92)), mins2hhmm (makeshort (data 93) (data 94)))

/-- The fields of `struct tm` that `mktime` reads. -/
structure Tm where
  tm_sec : Int
  tm_min : Int
  tm_hour : Int
  tm_mday : Int
  tm_mon : Int
  tm_year : Int

/-- Whether a year of the Gregorian calendar is a leap year. -/
def isLeap (y : Int) : Bool := y % 4 = 0 ∧ (y % 100 ≠ 0 ∨ y % 400 = 0)

/-- The number of leap years before the year `y`. -/
def leapsBefore (y : Int) : Int := (y - 1) / 4 - (y - 1) / 100 + (y - 1) / 400

/-- The number of days from 1 January 1970 to 1 January of the year `y`. -/
def daysBeforeYear (y : Int) : Int := 365 * (y - 1970) + (leapsBefore y - leapsBefore 1970)

/-- The number of days of the year `y` before its month `m` (0 for January). -/
def daysBeforeMonth (y : Int) (m : Nat) : Int :=
  ([0, 31, 59, 90, 120, 151, 181, 212, 243, 273, 304, 334].getD m 0 : Nat) +
    (if isLeap y ∧ 2 ≤ m then 1 else 0)

/-- The C library function `mktime`, with the time zone taken as UTC: the seconds from
the start of 1 January 1970 to the time in `tm`.  Fields out of their range are
normalised: months beyond December count into the following years and days beyond the
end of the month into the following months. -/
def mktime (tm : Tm) : Int :=
  let y := 1900 + tm.tm_year + tm.tm_mon / 12
  let m := (tm.tm_mon % 12).toNat
  (daysBeforeYear y + daysBeforeMonth y m + (tm.tm_mday - 1)) * 86400
    + tm.tm_hour * 3600 + tm.tm_min * 60 + tm.tm_sec

/-- The assignments to `tm.tm_mon`, `tm.tm_mday` and `tm.tm_year`; the other fields
keep what they hold. -/
def setDate (tm : Tm) (mon mday year : Int) : Tm :=
  { tm with tm_mon := mon, tm_mday := mday, tm_year := year }

/-- The function `int stormstart(int v)`.  The local `struct tm` is not initialised: `tm`
is what it holds on entry, of which the time of day is kept.  In
`(v & 0xF000) >> 12 - 1` the subtraction binds first, so the shift is by 11; the day is
`(v & 0xf80) >> 6`; the result `mktime(&tm) / 86400 - 10957` is returned as an `int`. -/
def stormstart (tm : Tm) (v : Nat) : Int :=
  let tm1 : Tm := setDate tm ((v &&& 0xF000) >>> (12 - 1) : Nat) ((v &&& 0xf80) >>> 6 : Nat)
    ((v &&& 0x07F) + 100 : Nat)
  toInt32 ((mktime tm1).tdiv 86400 - 10957)

/-! ### The tolerant read -/

/-- A device that answers the wake-up with two bytes and the `LOOP 1` command with the
acknowledgement marker and 99 zero bytes (whose CRC is zero), then falls silent. -/
def goodDevice : St :=
  { St.init with serialIn := SerialEv.byte 10 :: SerialEv.byte 13 :: SerialEv.byte 6 ::
      List.replicate 99 (SerialEv.byte 0) }

/-- A poll followed by the command `loop` from the server: the device answers the
wake-up and the poll as in `goodDevice`, then answers the wake-up and the `LOOP 1` of
the command with two bytes and 99 bytes; the frame on the socket is the length 4 and
the text `loop`. -/
def loopAfterPoll : St :=
  { St.init with
    serialIn := SerialEv.byte 10 :: SerialEv.byte 13 :: SerialEv.byte 6 ::
      (List.replicate 99 (SerialEv.byte 0) ++ SerialEv.byte 10 :: SerialEv.byte 13 ::
        List.replicate 99 (SerialEv.byte 1)),
    sockIn := [[0, 4] ++ ofString "loop"] }

/-- The server sends the frame `interval 0` (length 10). -/
def intervalZero : St :=
  { St.init with sockIn := [[0, 10] ++ ofString "interval 0"] }

/-- The server sends the frame `eXit` (length 4). -/
def exitFrame : St :=
  { St.init with sockIn := [[0, 4] ++ ofString "eXit"] }

/-- The server sends the frame `frobnicate` (length 10). -/
def frobnicate : St :=
  { St.init with sockIn := [[0, 10] ++ ofString "frobnicate"] }

/-- The serial link accepts 3 bytes of the first write and 7 bytes of the second. -/
def partialWrite : St :=
  { St.init with serialWr := [3, 7] }

/-- The first write on the serial link fails (returns -1). -/
def failedWrite : St :=
  { St.init with serialWr := [-1] }

/-- The server sends a frame of 9 bytes: `exit`, a NUL byte and `junk`. -/
def exitJunk : St :=
  { St.init with sockIn := [[0, 9] ++ ofString "exit" ++ 0 :: ofString "junk"] }

/-- The server sends a frame of 128 bytes, each the letter `a`. -/
def longPayload : St :=
  { St.init with sockIn := [[0, 128] ++ List.replicate 128 97] }

/-- The device is silent and re-opening the serial port fails twice, then succeeds. -/
def deadLink : St :=
  { St.init with openRes := [-1, -1, 5] }

/-! ### The forwarding gate, in the words of the spec -/

/-- The gate of the spec on the accumulated data: exactly 100 bytes, the
acknowledgement marker 0x06 first, and a zero CRC over the 99 bytes that follow. -/
def passesGate (d : Data) : Prop :=
  d.count = 100 ∧ d.buf 0 = 0x06 ∧ checkCRC 99 (bytesAt d.buf 1 99) = 0

/-- The real-time report of the spec: the length 112 as a big-endian 16-bit number,
the tag "davis realtime" with a terminating NUL, and bytes 1..97 of the buffer. -/
def wireReport (d : Data) : List Nat :=
  [0x00, 0x70] ++ (ofString "davis realtime" ++ [0]) ++ bytesAt d.buf 1 97

/-! ### Time texts and storm start, in the words of the spec -/

/-- The text of the spec for a number of minutes since midnight: two-digit `x div 60`,
a colon, two-digit `x mod 60`. -/
def hhmmOfMinutes (x : Nat) : List Nat :=
  fmt02d ((x / 60 : Nat) : Int) ++ [58] ++ fmt02d ((x % 60 : Nat) : Int)

/-- A `struct tm` with a zero time of day. -/
def midnight : Tm :=
  { tm_sec := 0, tm_min := 0, tm_hour := 0, tm_mday := 0, tm_mon := 0, tm_year := 0 }

/-- The packed storm-start value of the spec for month `m`, day `d` and year offset
`y`, laid out as `MMMMDDDDDYYYYYYY`. -/
def packStorm (m d y : Nat) : Nat := (m <<< 12) ||| (d <<< 7) ||| y

/-- The day count of the spec: the whole days from 1 January 2000 to day `d` of month
`m` (1 for January) of the year `2000 + y`. -/
def daysSince2000 (m d y : Nat) : Int :=
  (mktime (setDate midnight ((m : Int) - 1) d ((y : Int) + 100))).tdiv 86400 - 10957

/-! ## Theorems -/

theorem crcStep_lt (crc b : Nat) : crcStep crc b < 65536 := by
  unfold crcStep
  have h := Nat.and_pow_two_sub_one_eq_mod (crc_table ((crc >>> 8) ^^^ b) ^^^ (crc <<< 8)) 16
  norm_num at h
  rw [h]
  omega

theorem foldl_crcStep_lt (l : List Nat) (c : Nat) (hc : c < 65536) :
    l.foldl crcStep c < 65536 := by
  induction l generalizing c with
  | nil => simpa using hc
  | cons b l ih => exact ih _ (crcStep_lt c b)

theorem checkCRC_lt (size : Nat) (msg : List Nat) : checkCRC size msg < 65536 :=
  foldl_crcStep_lt _ 0 (by norm_num)

theorem crc_table_zero : crc_table 0 = 0 := by decide

/-- Feeding a 16-bit checksum its own high byte and then its own low byte clears it. -/
theorem crcStep_self (c : Nat) :
    crcStep (crcStep c (c >>> 8)) (c &&& 0xFF) = 0 := by
  have hmask : ∀ x : Nat, x &&& 0xFFFF = x % 65536 := by
    intro x
    have h := Nat.and_pow_two_sub_one_eq_mod x 16
    norm_num at h
    exact h
  have hlow : c &&& 0xFF = c % 256 := by
    have h := Nat.and_pow_two_sub_one_eq_mod c 8
    norm_num at h
    exact h
  have h1 : crcStep c (c >>> 8) = (c * 256) % 65536 := by
    unfold crcStep
    rw [Nat.xor_self, crc_table_zero, Nat.zero_xor, hmask, Nat.shiftLeft_eq]
  rw [h1, hlow]
  unfold crcStep
  have h2 : (c * 256 % 65536) >>> 8 = c % 256 := by
    rw [Nat.shiftRight_eq_div_pow]
    norm_num
    omega
  rw [h2, Nat.xor_self, crc_table_zero, Nat.zero_xor, hmask, Nat.shiftLeft_eq]
  norm_num
  omega

/-- C1: for every byte sequence `p`, with `c = checkCRC(len(p), p)`, the high and low
bytes of `c` are bytes, and the CRC of `p` followed by the high byte of `c` and then the
low byte of `c` is 0. -/
theorem checkCRC_roundtrip (p : List Nat) :
    (checkCRC p.length p >>> 8 < 256 ∧ checkCRC p.length p &&& 0xFF < 256) ∧
    checkCRC (p.length + 2)
      (p ++ [checkCRC p.length p >>> 8, checkCRC p.length p &&& 0xFF]) = 0 := by
  have hc := checkCRC_lt p.length p
  refine ⟨⟨?_, ?_⟩, ?_⟩
  · rw [Nat.shiftRight_eq_div_pow]
    norm_num
    omega
  · have h := Nat.and_pow_two_sub_one_eq_mod (checkCRC p.length p) 8
    norm_num at h
    rw [h]
    omega
  · unfold checkCRC
    rw [List.take_length, List.take_of_length_le (by simp), List.foldl_append]
    simp only [List.foldl_cons, List.foldl_nil]
    exact crcStep_self _

/-- C2 (the claim as stated fails): at the time `2^62` with the interval `2^62` the
sum `2^63` does not fit `time_t`; `timeMod` returns `-2^63`, which is not greater than
the time. -/
theorem timeMod_overflows :
    timeMod 4611686018427387904 4611686018427387904 = -9223372036854775808 ∧
    ¬ ((4611686018427387904 : Int) < timeMod 4611686018427387904 4611686018427387904) := by
  decide

/-- C2 (amended): for every time `now >= 0` and every `interval >= 0`, with `e = 600`
when the interval is 0 and `e = interval` otherwise, whenever the sum
`(now div e) * e + e` fits `time_t` (it is below `2^63`), `timeMod` returns the
smallest multiple of `e` strictly greater than `now`: it equals that sum, is greater
than `now`, divisible by `e`, at most `e` above `now`, and below every other multiple
of `e` that is greater than `now`; interval 0 gives the same result as interval 600. -/
theorem timeMod_aligned (now interval : Int) (hnow : 0 ≤ now) (hint : 0 ≤ interval)
    (hfit : now / (if interval = 0 then 600 else interval) *
      (if interval = 0 then 600 else interval) + (if interval = 0 then 600 else interval)
        < 2 ^ 63) :
    timeMod now interval = now / (if interval = 0 then 600 else interval) *
      (if interval = 0 then 600 else interval) + (if interval = 0 then 600 else interval) ∧
    now < timeMod now interval ∧
    (if interval = 0 then 600 else interval) ∣ timeMod now interval ∧
    timeMod now interval - (if interval = 0 then 600 else interval) ≤ now ∧
    (∀ m : Int, (if interval = 0 then 600 else interval) ∣ m → now < m →
      timeMod now interval ≤ m) ∧
    timeMod now 0 = timeMod now 600 := by
  have he : 0 < (if interval = 0 then 600 else interval) := by
    split_ifs with h
    · norm_num
    · omega
  have hval : timeMod now interval = now / (if interval = 0 then 600 else interval) *
      (if interval = 0 then 600 else interval) + (if interval = 0 then 600 else interval) := by
    unfold timeMod
    simp only [Int.tdiv_eq_ediv hnow (le_of_lt he)]
    generalize (if interval = 0 then 600 else interval) = e at he hfit
    have hp : 0 ≤ now / e * e := Int.mul_nonneg (Int.ediv_nonneg hnow (le_of_lt he)) (le_of_lt he)
    generalize now / e * e = q at hp hfit
    unfold toTimeT
    omega
  generalize (if interval = 0 then 600 else interval) = e at he hval hfit
  have hmod := Int.emod_add_ediv now e
  have hlt := Int.emod_lt_of_pos now he
  have hge := Int.emod_nonneg now (ne_of_gt he)
  have hcomm : e * (now / e) = now / e * e := mul_comm _ _
  refine ⟨hval, ?_, ?_, ?_, ?_, ?_⟩
  · rw [hval]; linarith
  · rw [hval]
    exact dvd_add (Dvd.intro_left _ rfl) (dvd_refl e)
  · rw [hval]; linarith
  · intro m hm hlt2
    obtain ⟨k, rfl⟩ := hm
    rw [hval]
    have hk : now / e < k := by
      by_contra hcon
      push_neg at hcon
      have : e * k ≤ e * (now / e) := Int.mul_le_mul_of_nonneg_left hcon (le_of_lt he)
      linarith
    have : e * (now / e + 1) ≤ e * k := Int.mul_le_mul_of_nonneg_left hk (le_of_lt he)
    linarith
  · simp [timeMod]

/-- Witness of C2 (amended): at time 1000 with interval 0 the next poll is due at 1200. -/
theorem timeMod_aligned_witness :
    (0 : Int) ≤ 1000 ∧ (0 : Int) ≤ 0 ∧ timeMod 1000 0 = 1200 ∧
    (1000 : Int) < timeMod 1000 0 :=
  ⟨by decide, by decide, by decide,
    (timeMod_aligned 1000 0 (by decide) (by decide) (by decide)).2.1⟩

/-- What `getbufLoop` leaves alone: everything but `data`, `commfd` and `serialIn`. -/
theorem getbufLoop_frame (evs : List SerialEv) (n : Int) (s : St) :
    ∃ d c i, (getbufLoop n evs s).2 = { s with data := d, commfd := c, serialIn := i } := by
  induction evs generalizing n s with
  | nil => exact ⟨s.data, s.commfd, [], rfl⟩
  | cons ev rest ih =>
    cases ev with
    | timeout => exact ⟨s.data, s.commfd, rest, rfl⟩
    | err => exact ⟨s.data, s.commfd, rest, rfl⟩
    | zero fd =>
      obtain ⟨d, c, i, h⟩ := ih n { s with commfd := fd }
      exact ⟨d, c, i, by rw [getbufLoop, h]⟩
    | byte b =>
      rw [getbufLoop]
      dsimp only
      split_ifs with h1 h2
      · exact ⟨_, s.commfd, rest, rfl⟩
      · exact ⟨_, s.commfd, rest, rfl⟩
      · obtain ⟨d, c, i, h⟩ := ih (n - 1) (storeByte b s)
        exact ⟨d, c, i, by rw [h]; rfl⟩

/-- The value `getbufLoop` returns is `data.count` of the state it leaves, or -1. -/
theorem getbufLoop_ret (evs : List SerialEv) (n : Int) (s : St) :
    (getbufLoop n evs s).1 = (getbufLoop n evs s).2.data.count ∨ (getbufLoop n evs s).1 = -1 := by
  induction evs generalizing n s with
  | nil => exact Or.inl rfl
  | cons ev rest ih =>
    cases ev with
    | timeout => exact Or.inl rfl
    | err => exact Or.inr rfl
    | zero fd => rw [getbufLoop]; exact ih n _
    | byte b =>
      rw [getbufLoop]
      dsimp only
      split_ifs with h1 h2
      · exact Or.inl rfl
      · exact Or.inl rfl
      · exact ih (n - 1) _

theorem serialWrite_frame (data : List Nat) (s : St) :
    ∃ w r t, (serialWrite data s).2 = { s with serialWr := w, serialReq := r, sent := t } := by
  unfold serialWrite
  split
  · exact ⟨s.serialWr, _, _, rfl⟩
  · exact ⟨_, _, _, rfl⟩

theorem sendSerialLoop_frame (data : List Nat) (more : Nat) (s : St) :
    ∃ w r t g, (sendSerialLoop data more s).2
      = { s with serialWr := w, serialReq := r, sent := t, log := g } := by
  induction more generalizing s with
  | zero =>
    obtain ⟨w, r, t, h⟩ := serialWrite_frame data s
    rw [sendSerialLoop]
    split_ifs
    · exact ⟨w, r, t, _, by rw [h]; rfl⟩
    · exact ⟨w, r, t, s.log, by rw [h]⟩
  | succ m ih =>
    obtain ⟨w, r, t, h⟩ := serialWrite_frame data s
    rw [sendSerialLoop]
    split_ifs
    · obtain ⟨w2, r2, t2, g2, h2⟩ := ih (serialWrite data s).2
      exact ⟨w2, r2, t2, g2, by rw [h2, h]⟩
    · exact ⟨w, r, t, s.log, by rw [h]⟩

theorem sendSerial_frame (data : List Nat) (s : St) :
    ∃ w r t g, (sendSerial data s).2
      = { s with serialWr := w, serialReq := r, sent := t, log := g } :=
  sendSerialLoop_frame data _ s

theorem wakeupLoop_frame (n : Nat) (s : St) :
    ∃ i w r t g, (wakeupLoop n s).2
      = { s with serialIn := i, serialWr := w, serialReq := r, sent := t, log := g } := by
  induction n generalizing s with
  | zero => exact ⟨s.serialIn, s.serialWr, s.serialReq, s.sent, s.log, rfl⟩
  | succ n ih =>
    obtain ⟨w, r, t, g, h⟩ := sendSerial_frame [10] s
    rw [wakeupLoop]
    dsimp only
    split
    · obtain ⟨i2, w2, r2, t2, g2, h2⟩ := ih (sendSerial [10] s).2
      exact ⟨i2, w2, r2, t2, g2, by rw [h2, h]⟩
    · obtain ⟨i2, w2, r2, t2, g2, h2⟩ := ih { (sendSerial [10] s).2 with serialIn := _ }
      exact ⟨i2, w2, r2, t2, g2, by rw [h2, h]⟩
    · split_ifs
      · exact ⟨_, w, r, t, g, by rw [h]⟩
      · obtain ⟨i2, w2, r2, t2, g2, h2⟩ := ih { (sendSerial [10] s).2 with serialIn := _ }
        exact ⟨i2, w2, r2, t2, g2, by rw [h2, h]⟩

theorem pollStart_frame (s : St) :
    ∃ i w r t g, pollStart s
      = { s with serialIn := i, serialWr := w, serialReq := r, sent := t, log := g } := by
  obtain ⟨i, w, r, t, g, h⟩ := wakeupLoop_frame 2 s
  obtain ⟨w2, r2, t2, g2, h2⟩ := sendSerial_frame (ofString "LOOP 1\n") (wakeup s).2
  unfold pollStart
  unfold wakeup at h2 ⊢
  exact ⟨i, w2, r2, t2, g2, by rw [h2, h]⟩

theorem pollRead_frame (s : St) :
    ∃ d c i, pollRead s = { s with data := d, commfd := c, serialIn := i } := by
  obtain ⟨d, c, i, h⟩ := getbufLoop_frame s.serialIn 100 { s with data := { s.data with count := 0 } }
  exact ⟨d, c, i, h⟩

theorem pollStart_upstream (s : St) :
    (pollStart s).upstream = s.upstream ∧ (pollStart s).sockfd = s.sockfd := by
  obtain ⟨i, w, r, t, g, h⟩ := pollStart_frame s
  rw [h]
  exact ⟨rfl, rfl⟩

theorem pollRead_upstream (s : St) :
    (pollRead s).upstream = s.upstream ∧ (pollRead s).sockfd = s.sockfd := by
  obtain ⟨d, c, i, h⟩ := pollRead_frame s
  rw [h]
  exact ⟨rfl, rfl⟩

theorem reopenLoop_upstream (rs : List Int) (s t : St) (h : reopenLoop rs s = some t) :
    t.upstream = s.upstream := by
  induction rs generalizing s with
  | nil => simp [reopenLoop] at h
  | cons r rest ih =>
    rw [reopenLoop] at h
    split_ifs at h
    · exact (ih _ h).trans rfl
    · cases h
      rfl

theorem dumphex_upstream (n : Nat) (b : Int → Nat) (off : Int) (s : St) :
    (dumphex n b off s).upstream = s.upstream := by
  unfold dumphex
  split_ifs <;> rfl

theorem report_eq (d : Data) : report d.buf = wireReport d := by
  unfold report wireReport
  rfl

theorem wireReport_length (d : Data) : (wireReport d).length = 114 := by
  simp only [wireReport, bytesAt, List.length_append, List.length_map, List.length_range]
  rfl

/-- The bytes sent upstream by the branch for a ready device. -/
theorem pollReady_upstream (s : St) (hsock : s.sockfd ≠ 0) :
    (passesGate (pollRead s).data →
      (pollReady s).2.upstream = s.upstream ++ [wireReport (pollRead s).data]) ∧
    (¬ passesGate (pollRead s).data → (pollReady s).2.upstream = s.upstream) := by
  obtain ⟨hu, hs⟩ := pollRead_upstream s
  have hsock1 : (pollRead s).sockfd ≠ 0 := by rw [hs]; exact hsock
  unfold pollReady passesGate
  dsimp only
  constructor
  · rintro ⟨h1, h2, h3⟩
    rw [if_neg (by rw [h1]; simp), if_neg (by rw [h2]; simp [ACK]), if_neg (by rw [h3]; simp),
      if_pos hsock1]
    split_ifs
    · show (dumphex 99 _ 1 _).upstream = _
      rw [dumphex_upstream]
      show (pollRead s).upstream ++ [report (pollRead s).data.buf] = _
      rw [hu, report_eq]
    · show (pollRead s).upstream ++ [report (pollRead s).data.buf] = _
      rw [hu, report_eq]
  · intro hg
    split_ifs with h1 h2 h3 h4
    · exact hu
    · exact hu
    · exact hu
    · exfalso
      apply hg
      refine ⟨by simpa using h1, by simpa [ACK] using h2, by simpa using h3⟩
    · exfalso
      apply hg
      refine ⟨by simpa using h1, by simpa [ACK] using h2, by simpa using h3⟩

/-- C3: in a poll cycle with the upstream socket connected, when the wait for the
device reports data the cycle completes and writes upstream exactly one report, the
114 bytes 0x00 0x70, "davis realtime" with its NUL and bytes 1..97 of the buffer, if
the tolerant read accumulated exactly 100 bytes, byte 0 is 0x06 and the CRC over bytes
1..99 is zero, and writes nothing otherwise; a cycle whose wait times out writes
nothing upstream. -/
theorem pollCycle_forward (n now : Int) (l : Loop) (s : St) (hsock : s.sockfd ≠ 0) :
    (n ≠ 0 → ∃ p, pollCycle n now l s = some p ∧
      (passesGate (pollRead (pollStart s)).data →
        p.2.upstream = s.upstream ++ [wireReport (pollRead (pollStart s)).data]) ∧
      (¬ passesGate (pollRead (pollStart s)).data → p.2.upstream = s.upstream)) ∧
    (∀ p, pollCycle 0 now l s = some p → p.2.upstream = s.upstream) ∧
    (wireReport (pollRead (pollStart s)).data).length = 114 := by
  obtain ⟨hu, hs⟩ := pollStart_upstream s
  have hsock0 : (pollStart s).sockfd ≠ 0 := by rw [hs]; exact hsock
  obtain ⟨g1, g2⟩ := pollReady_upstream (pollStart s) hsock0
  rw [hu] at g1 g2
  refine ⟨?_, ?_, wireReport_length _⟩
  · intro hn
    unfold pollCycle
    dsimp only
    rw [if_pos hn]
    split_ifs
    · exact ⟨_, rfl, g1, g2⟩
    · exact ⟨_, rfl, g1, g2⟩
  · intro p hp
    unfold pollCycle pollTimeout at hp
    simp only [ne_eq, not_true_eq_false, if_false] at hp
    split_ifs at hp with ho
    · simp only [Option.map_some'] at hp
      cases hp
      exact hu
    · simp only [Option.map_map, Option.map_eq_some'] at hp
      obtain ⟨t, ht, rfl⟩ := hp
      have := reopenLoop_upstream _ _ _ ht
      simp only [Function.comp]
      rw [this]
      exact hu

set_option maxRecDepth 100000 in
/-- Witness of C3: the device of `goodDevice` passes the gate and its report is
written upstream. -/
theorem pollCycle_forward_witness :
    goodDevice.sockfd ≠ 0 ∧ passesGate (pollRead (pollStart goodDevice)).data ∧
    ∃ p, pollCycle 1 0 { online := 1, nextRealTime := 0 } goodDevice = some p ∧
      p.2.upstream = goodDevice.upstream ++ [wireReport (pollRead (pollStart goodDevice)).data] :=
  have hg : passesGate (pollRead (pollStart goodDevice)).data := by
    unfold passesGate
    decide!
  ⟨by decide, hg,
    match (pollCycle_forward 1 0 { online := 1, nextRealTime := 0 } goodDevice (by decide)).1
      (by decide) with
    | ⟨p, hp, h1, _⟩ => ⟨p, hp, h1 hg⟩⟩

/-- C4 (evaluation of the code): the command `loop` arriving after a poll cycle that
accumulated 100 bytes.  `processSocket` does not reset `data.count` before its
`getbuf(99, 1000)`, so that call starts at count 100 and returns 199, more than its
`max` of 99; the poll path resets the count, the command path does not. -/
theorem getbuf_exceeds_max_after_poll :
    (pollCycle 1 0 { online := 1, nextRealTime := 0 } loopAfterPoll).map (fun p =>
      (p.2.data.count, (readFrame p.2).1,
        (getbuf 99 1000 (sendSerial (ofString "LOOP 1\n") (wakeup (readFrame p.2).2).2).2).1,
        (processSocket p.2).map (fun r => r.2.data.count)))
      = some (100, Frame.payload (ofString "loop"), 199, some 199) ∧
    ¬ ((199 : Int) ≤ 99) :=
  ⟨by decide!, by decide⟩

/-! ### Command dispatch -/

theorem cstr_of_no_nul (b : List Nat) (h : 0 ∉ b) : cstr b = b := by
  unfold cstr
  rw [List.takeWhile_eq_self_iff]
  intro x hx
  have : x ≠ 0 := fun h0 => h (h0 ▸ hx)
  simpa using this

/-- The value `dispatch` returns: 0 on `exit`, 1 in every other branch. -/
theorem dispatch_ret (b : List Nat) (s : St) :
    (dispatch b s).1 = if strcasecmp0 b (ofString "exit") then 0 else 1 := by
  unfold dispatch
  by_cases h : strcasecmp0 b (ofString "exit") = true
  · rw [if_pos h, if_pos h]
  · rw [if_neg h, if_neg h]
    dsimp only
    repeat (first | rfl | split)

theorem strcasecmp0_exit (b : List Nat) :
    strcasecmp0 b (ofString "exit") = true ↔ (cstr b).map tolower = ofString "exit" := by
  unfold strcasecmp0
  have h : (cstr (ofString "exit")).map tolower = ofString "exit" := by decide
  rw [h]
  exact beq_iff_eq

/-- A payload that the loop of `processSocket` leaves in `buffer` is shorter than the
128 bytes of `buffer`. -/
theorem readPayload_length (more : Nat) (acc : List Nat) (msglen : Int) (s : St)
    (b : List Nat) (hacc : acc.length ≤ 128)
    (h : (readPayload more acc msglen s).1 = Frame.payload b) : b.length < 128 := by
  induction more generalizing acc msglen s with
  | zero =>
    rw [readPayload] at h
    split at h <;> split_ifs at h <;> first
      | (simp at h
         subst h
         simp only [List.length_dropLast, List.length_append, bufferSize] at *
         omega)
  | succ m ih =>
    rw [readPayload] at h
    split at h <;> split_ifs at h <;> first
      | (refine ih _ _ _ ?_ h
         simp only [List.length_dropLast, List.length_append, bufferSize] at *
         omega)
      | (simp at h
         subst h
         simp only [List.length_dropLast, List.length_append, bufferSize] at *
         omega)

/-- A payload read completely is at most 127 bytes long. -/
theorem readFrame_length (s : St) (b : List Nat) (h : (readFrame s).1 = Frame.payload b) :
    b.length < 128 := by
  unfold readFrame at h
  dsimp only at h
  split at h
  · exact readPayload_length _ [] _ _ b (by simp) h
  · cases h

theorem processSocket_of_overrun (s t : St) (h : readFrame s = (Frame.overrun, t)) :
    processSocket s = none := by
  unfold processSocket
  rw [h]

/-- C6 (the claim as stated fails): the payload of 9 bytes `exit`, NUL, `junk` is read
completely and is not `exit` in any case of letters, yet `processSocket` returns 0;
and the payload of 128 letters `a` is not `exit` either, yet `processSocket` does not
return 1: the NUL after it is stored beyond the 128 bytes of `buffer`. -/
theorem exit_nul_junk_stops :
    (readFrame exitJunk).1 = Frame.payload (ofString "exit" ++ 0 :: ofString "junk") ∧
    (ofString "exit" ++ 0 :: ofString "junk").map tolower ≠ ofString "exit" ∧
    (processSocket exitJunk).map Prod.fst = some 0 ∧
    (readFrame longPayload).1 = Frame.overrun ∧
    (processSocket longPayload).map Prod.fst = none := by
  decide!

/-- C6 (amended): every command payload that `processSocket` reads completely is at
most 127 bytes long (it fits `buffer` with its NUL), and for every such payload
`processSocket` returns 0 exactly when the text of the payload before its first NUL
byte (the whole payload when it holds none) equals `exit` ignoring ASCII case, and
returns 1 for every other such payload. -/
theorem processSocket_keep_running (s : St) (buffer : List Nat)
    (hread : (readFrame s).1 = Frame.payload buffer) :
    buffer.length < 128 ∧
    ((processSocket s).map Prod.fst = some 0 ↔ (cstr buffer).map tolower = ofString "exit") ∧
    ((cstr buffer).map tolower ≠ ofString "exit" → (processSocket s).map Prod.fst = some 1) ∧
    (0 ∉ buffer →
      ((processSocket s).map Prod.fst = some 0 ↔ buffer.map tolower = ofString "exit")) ∧
    (0 ∉ buffer → buffer.map tolower ≠ ofString "exit" →
      (processSocket s).map Prod.fst = some 1) := by
  have hp : (processSocket s).map Prod.fst
      = some (if strcasecmp0 buffer (ofString "exit") then 0 else 1) := by
    unfold processSocket
    simp only [hread, Option.map_some']
    rw [dispatch_ret buffer _]
  have h1 : (processSocket s).map Prod.fst = some 0 ↔
      (cstr buffer).map tolower = ofString "exit" := by
    rw [hp, ← strcasecmp0_exit]
    split_ifs with h <;> simp [h]
  have h2 : (cstr buffer).map tolower ≠ ofString "exit" →
      (processSocket s).map Prod.fst = some 1 := by
    intro hne
    rw [hp, if_neg]
    rw [strcasecmp0_exit]
    exact hne
  refine ⟨readFrame_length s buffer hread, h1, h2, ?_, ?_⟩
  · intro h0
    rw [cstr_of_no_nul buffer h0] at h1
    exact h1
  · intro h0 hne
    apply h2
    rw [cstr_of_no_nul buffer h0]
    exact hne

/-- Witness of C6 (amended): the frame `eXit` is read completely and stops the loop;
the frame `frobnicate` keeps it running and is logged as received. -/
theorem processSocket_keep_running_witness :
    (readFrame exitFrame).1 = Frame.payload (ofString "eXit") ∧
    (ofString "eXit").map tolower = ofString "exit" ∧
    (processSocket exitFrame).map Prod.fst = some 0 ∧
    (processSocket frobnicate).map Prod.fst = some 1 ∧
    (processSocket frobnicate).map (fun r => r.2.log)
      = some [(INFO, Msg.unknownMessage (ofString "frobnicate"))] :=
  ⟨by decide, by decide,
    ((processSocket_keep_running exitFrame (ofString "eXit") (by decide)).2.2.2.1
      (by decide)).2 (by decide),
    by decide, by decide⟩

/-- The dispatch of the text `interval 0`: `strtol` gives 0, which is replaced by 60. -/
theorem dispatch_interval_zero (t : St) :
    dispatch (ofString "interval 0") t
      = (1, logmsg INFO (Msg.intervalSet 60) { t with tmout := 60 }) := by
  unfold dispatch
  rw [if_neg (by decide), if_neg (by decide), if_neg (by decide), if_neg (by decide),
    if_neg (by decide), if_neg (by decide), if_neg (by decide), if_neg (by decide),
    if_neg (by decide), if_pos (by decide)]
  rfl

/-- C7 (the claim as stated fails): on the frame `interval 0` the poll interval is not
600 afterwards; it is 60. -/
theorem interval_zero_not_600 :
    ¬ ((processSocket intervalZero).map (fun r => (r.2.tmout, r.1)) = some (600, 1)) ∧
    (processSocket intervalZero).map (fun r => r.2.tmout) = some 60 := by
  decide

/-- C7 (amended): dispatching the frame `interval 0` sets the poll interval `tmout` to
60 seconds, logs the new interval and keeps the loop running. -/
theorem processSocket_interval_zero (s : St)
    (hread : (readFrame s).1 = Frame.payload (ofString "interval 0")) :
    ∃ t, processSocket s = some (1, t) ∧ t.tmout = 60 ∧
      t.log = (readFrame s).2.log ++ [(INFO, Msg.intervalSet 60)] := by
  have hp : processSocket s = some (dispatch (ofString "interval 0") (readFrame s).2) := by
    unfold processSocket
    simp only [hread]
  rw [hp, dispatch_interval_zero]
  exact ⟨_, rfl, rfl, rfl⟩

/-- Witness of C7 (amended) on the frame of `intervalZero`. -/
theorem processSocket_interval_zero_witness :
    (readFrame intervalZero).1 = Frame.payload (ofString "interval 0") ∧
    ∃ t, processSocket intervalZero = some (1, t) ∧ t.tmout = 60 ∧
      t.log = (readFrame intervalZero).2.log ++ [(INFO, Msg.intervalSet 60)] :=
  ⟨by decide, processSocket_interval_zero intervalZero (by decide)⟩

/-! ### Sending a command -/

theorem serialWrite_req (data : List Nat) (s : St) :
    (serialWrite data s).2.serialReq = s.serialReq ++ [data] := by
  unfold serialWrite
  split <;> rfl

/-- The loop of `sendSerial` makes at most `more + 1` writes, each of the whole text. -/
theorem sendSerialLoop_req (data : List Nat) (more : Nat) (s : St) :
    ∃ k, 1 ≤ k ∧ k ≤ more + 1 ∧
      (sendSerialLoop data more s).2.serialReq = s.serialReq ++ List.replicate k data := by
  induction more generalizing s with
  | zero =>
    rw [sendSerialLoop]
    refine ⟨1, le_refl _, le_refl _, ?_⟩
    split_ifs
    · exact serialWrite_req data s
    · exact serialWrite_req data s
  | succ m ih =>
    rw [sendSerialLoop]
    split_ifs
    · obtain ⟨k, hk1, hk2, hk⟩ := ih (serialWrite data s).2
      refine ⟨k + 1, by omega, by omega, ?_⟩
      rw [hk, serialWrite_req, List.append_assoc]
      rfl
    · exact ⟨1, le_refl _, by omega, serialWrite_req data s⟩

/-- C8 (evaluation of the code): with the text `LOOP 1` and a newline, when the link
accepts 3 bytes of the first write and all 7 of the second, `sendSerial` passes the whole
text to both writes (not the 4 bytes left), returns 0, and the link has received the 10
bytes `LOOLOOP 1` and a newline, not the command; and when the first write fails,
`sendSerial` returns 0 at once with nothing accepted by the link. -/
theorem sendSerial_resends_whole_text :
    (sendSerial (ofString "LOOP 1\n") partialWrite).1 = 0 ∧
    (sendSerial (ofString "LOOP 1\n") partialWrite).2.serialReq
      = [ofString "LOOP 1\n", ofString "LOOP 1\n"] ∧
    (sendSerial (ofString "LOOP 1\n") partialWrite).2.sent = ofString "LOOLOOP 1\n" ∧
    (sendSerial (ofString "LOOP 1\n") partialWrite).2.sent ≠ ofString "LOOP 1\n" ∧
    (sendSerial (ofString "LOOP 1\n") failedWrite).1 = 0 ∧
    (sendSerial (ofString "LOOP 1\n") failedWrite).2.serialReq = [ofString "LOOP 1\n"] ∧
    (sendSerial (ofString "LOOP 1\n") failedWrite).2.sent = [] := by
  decide

/-! ### Reading a frame -/

/-- A read that asks for at least as many bytes as the first chunk holds. -/
theorem sockRead_chunk (n : Int) (s : St) (c : List Nat) (rest : List (List Nat))
    (hin : s.sockIn = c :: rest) (h0 : 0 ≤ n) (h1 : n < 32768) (hc : (c.length : Int) ≤ n) :
    sockRead n s = (some c, { s with sockIn := rest, sockReads := s.sockReads + 1 }) := by
  unfold sockRead
  rw [hin]
  have h : c.length ≤ (toSizeT n).toNat := by
    unfold toSizeT
    omega
  have h2 : ¬ ((2 : Int) ^ 63 ≤ toSizeT n) := by
    unfold toSizeT
    omega
  simp only [h, h2, if_true, if_false]

/-- A round of the payload loop in which the read stores bytes beyond `buffer`. -/
theorem readPayload_overrun (m : Nat) (acc : List Nat) (msglen : Int) (s : St) (c : List Nat)
    (rest : List (List Nat)) (hin : s.sockIn = c :: rest) (h0 : 0 ≤ msglen)
    (h1 : msglen < 32768) (hc : (c.length : Int) ≤ msglen)
    (hbig : 128 < acc.length + c.length) :
    readPayload m acc msglen s
      = (Frame.overrun, { s with sockIn := rest, sockReads := s.sockReads + 1 }) := by
  cases m with
  | zero =>
    rw [readPayload, sockRead_chunk msglen s c rest hin h0 h1 hc]
    dsimp only
    rw [if_pos (by simp only [bufferSize]; omega)]
  | succ m =>
    rw [readPayload, sockRead_chunk msglen s c rest hin h0 h1 hc]
    dsimp only
    rw [if_pos (by simp only [bufferSize]; omega)]

/-- The re-open loop on results that fail and then succeed: one error line per failure. -/
theorem reopenLoop_fails (fails : List Int) (fd : Int) (rest : List Int) (s : St)
    (hfails : ∀ r ∈ fails, r < 0) (hfd : 0 ≤ fd) :
    ∃ t, reopenLoop (fails ++ fd :: rest) s = some t ∧
      t.log = s.log ++ fails.map (fun _ => (ERROR, Msg.reopenFailed)) ∧ t.commfd = fd := by
  induction fails generalizing s with
  | nil =>
    refine ⟨{ s with commfd := fd, openRes := rest }, ?_, by simp, rfl⟩
    rw [List.nil_append, reopenLoop, if_neg (by omega)]
  | cons r fails ih =>
    have hr : r < 0 := hfails r (List.mem_cons_self _ _)
    obtain ⟨t, h1, h2, h3⟩ := ih (logmsg ERROR Msg.reopenFailed { s with commfd := r })
      (fun x hx => hfails x (List.mem_cons_of_mem _ hx))
    refine ⟨t, ?_, ?_, h3⟩
    · rw [List.cons_append, reopenLoop, if_pos hr]
      exact h1
    · rw [h2]
      simp [logmsg]

/-- A command sent while every write is accepted whole logs nothing. -/
theorem sendSerialLoop_quiet (data : List Nat) (more : Nat) (s : St)
    (hlen : (data.length : Int) < 2 ^ 64) (hw : s.serialWr = []) :
    (sendSerialLoop data more s).2.log = s.log ∧ (sendSerialLoop data more s).2.serialWr = [] ∧
    (sendSerialLoop data more s).2.serialIn = s.serialIn := by
  have hwr : serialWrite data s
      = ((data.length : Int),
          { s with serialReq := s.serialReq ++ [data], sent := s.sent ++ data }) := by
    unfold serialWrite
    rw [hw]
  have hno : ¬ (toSizeT (data.length : Int) < data.length) := by
    unfold toSizeT
    omega
  cases more with
  | zero =>
    rw [sendSerialLoop, hwr]
    dsimp only
    rw [if_neg hno]
    exact ⟨rfl, hw, rfl⟩
  | succ m =>
    rw [sendSerialLoop, hwr]
    dsimp only
    rw [if_neg hno]
    exact ⟨rfl, hw, rfl⟩

theorem wakeupLoop_quiet (n : Nat) (s : St) (hw : s.serialWr = []) :
    (wakeupLoop n s).2.log = s.log ∧ (wakeupLoop n s).2.serialWr = [] := by
  induction n generalizing s with
  | zero => exact ⟨rfl, hw⟩
  | succ n ih =>
    obtain ⟨h1, h2, h3⟩ := sendSerialLoop_quiet [10] (SERIALNUMRETRIES - 1) s (by norm_num) hw
    rw [wakeupLoop]
    dsimp only
    split
    · exact ⟨(ih _ h2).1.trans h1, (ih _ h2).2⟩
    · refine ⟨(ih _ ?_).1.trans h1, (ih _ ?_).2⟩ <;> exact h2
    · split_ifs
      · exact ⟨h1, h2⟩
      · refine ⟨(ih _ ?_).1.trans h1, (ih _ ?_).2⟩ <;> exact h2

/-- The start of a poll cycle logs nothing while every write is accepted whole. -/
theorem pollStart_quiet (s : St) (hw : s.serialWr = []) : (pollStart s).log = s.log := by
  obtain ⟨g1, g2⟩ := wakeupLoop_quiet 2 s hw
  obtain ⟨h1, _, _⟩ := sendSerialLoop_quiet (ofString "LOOP 1\n") (SERIALNUMRETRIES - 1)
    (wakeup s).2 (by decide) g2
  unfold pollStart
  exact h1.trans g1

theorem pollStart_openRes (s : St) : (pollStart s).openRes = s.openRes := by
  obtain ⟨i, w, r, t, g, h⟩ := pollStart_frame s
  rw [h]

/-- The log after the branch for a ready device: the summary line at most, and never a
dump warning other than that of the dump file. -/
theorem pollReady_log (s : St) :
    ∃ extra, (pollReady s).2.log = s.log ++ extra ∧
      ∀ e ∈ extra, e.2 ≠ Msg.noData ∧ e.2 ≠ Msg.reopenFailed := by
  obtain ⟨d, c, i, h⟩ := pollRead_frame s
  have hl : (pollRead s).log = s.log := by rw [h]
  unfold pollReady
  dsimp only
  split_ifs
  · exact ⟨[], by simpa using hl, by simp⟩
  · exact ⟨[], by simpa using hl, by simp⟩
  · exact ⟨[], by simpa using hl, by simp⟩
  · unfold dumphex
    split_ifs
    · exact ⟨[(INFO, Msg.packet (bytesAt (pollRead s).data.buf 1 99))], by simp [logmsg, hl], by simp⟩
    · exact ⟨[(WARN, Msg.dumpOpenFailed), (INFO, Msg.packet (bytesAt (pollRead s).data.buf 1 99))], by simp [logmsg, hl], by simp⟩
  · exact ⟨[], by simpa using hl, by simp⟩
  · unfold dumphex
    split_ifs
    · exact ⟨[(INFO, Msg.packet (bytesAt (pollRead s).data.buf 1 99))], by simp [logmsg, hl], by simp⟩
    · exact ⟨[(WARN, Msg.dumpOpenFailed), (INFO, Msg.packet (bytesAt (pollRead s).data.buf 1 99))], by simp [logmsg, hl], by simp⟩
  · exact ⟨[], by simpa using hl, by simp⟩

/-- C10: when the wait of a poll cycle times out while the bridge is online and
re-opening the serial port fails `N` times and then succeeds, the cycle completes, the
bridge is marked offline, and the log gains exactly one offline warning followed by
exactly `N` re-open error lines (after what sending the command logged, which is
nothing while every write is accepted whole); a poll timeout while offline adds nothing
to the log and stays offline; and a cycle whose wait has data ready sets the bridge
online and adds neither an offline warning nor a re-open error. -/
theorem pollCycle_reconnect (now : Int) (l : Loop) (s : St) (fails : List Int) (fd : Int)
    (rest : List Int) (honline : l.online ≠ 0) (hfails : ∀ r ∈ fails, r < 0) (hfd : 0 ≤ fd)
    (hres : s.openRes = fails ++ fd :: rest) :
    (∃ p, pollCycle 0 now l s = some p ∧ p.1.online = 0 ∧
      p.2.log = (pollStart s).log ++
        (WARN, Msg.noData) :: fails.map (fun _ => (ERROR, Msg.reopenFailed))) ∧
    (∀ s2 : St, s2.serialWr = [] → (pollStart s2).log = s2.log) ∧
    (∀ (l2 : Loop) (s2 : St), l2.online = 0 →
      ∃ p, pollCycle 0 now l2 s2 = some p ∧ p.1.online = 0 ∧ p.2.log = (pollStart s2).log) ∧
    (∀ (n : Int) (l2 : Loop) (s2 : St), n ≠ 0 →
      ∃ p, pollCycle n now l2 s2 = some p ∧ p.1.online = 1 ∧
        ∃ extra, p.2.log = (pollStart s2).log ++ extra ∧
          ∀ e ∈ extra, e.2 ≠ Msg.noData ∧ e.2 ≠ Msg.reopenFailed) := by
  refine ⟨?_, pollStart_quiet, ?_, ?_⟩
  · obtain ⟨t, h1, h2, _⟩ := reopenLoop_fails fails fd rest
      (logmsg WARN Msg.noData (pollStart s)) hfails hfd
    refine ⟨({ online := 0, nextRealTime := timeMod now t.tmout }, t), ?_, rfl, ?_⟩
    · unfold pollCycle pollTimeout
      simp only [ne_eq, not_true_eq_false, if_false]
      rw [if_pos honline, pollStart_openRes, hres, h1]
      rfl
    · rw [h2]
      simp [logmsg]
  · intro l2 s2 hoff
    refine ⟨({ l2 with nextRealTime := timeMod now (pollStart s2).tmout }, pollStart s2),
      ?_, hoff, rfl⟩
    unfold pollCycle pollTimeout
    simp only [ne_eq, not_true_eq_false, if_false]
    rw [if_neg (by simp [hoff])]
    rfl
  · intro n l2 s2 hn
    obtain ⟨extra, h1, h2⟩ := pollReady_log (pollStart s2)
    unfold pollCycle
    dsimp only
    rw [if_pos hn]
    split_ifs
    · exact ⟨_, rfl, rfl, extra, h1, h2⟩
    · exact ⟨_, rfl, rfl, extra, h1, h2⟩

/-- Witness of C10: the re-open fails twice and then succeeds. -/
theorem pollCycle_reconnect_witness :
    ∃ p, pollCycle 0 0 { online := 1, nextRealTime := 0 } deadLink = some p ∧ p.1.online = 0 ∧
      p.2.log = (pollStart deadLink).log ++
        (WARN, Msg.noData) :: [(-1 : Int), -1].map (fun _ => (ERROR, Msg.reopenFailed)) :=
  (pollCycle_reconnect 0 { online := 1, nextRealTime := 0 } deadLink [-1, -1] 5 []
    (by decide) (by decide) (by decide) rfl).1

/-! ### Time texts -/

/-- The conversion `%02d` of a number below 100 is its two decimal digits. -/
theorem fmt02d_two_digits : ∀ v < 100, fmt02d ((v : Nat) : Int) = [48 + v / 10, 48 + v % 10] := by
  decide

/-- The text of `mins2hhmm` for a field value below 10000. -/
theorem mins2hhmm_digits (x : Nat) (hx : x < 10000) :
    mins2hhmm (x : Int)
      = [48 + x / 1000, 48 + x / 100 % 10, 58, 48 + x % 100 / 10, 48 + x % 10] := by
  have hne : ¬ ((x : Int) = 0xFFFF) := by omega
  have hd : (x : Int).tdiv 100 = ((x / 100 : Nat) : Int) := by
    rw [Int.tdiv_eq_ediv (by omega) (by norm_num)]
    norm_cast
  have hm : (x : Int).tmod 100 = ((x % 100 : Nat) : Int) := by
    rw [Int.tmod_eq_emod (by omega) (by norm_num)]
    norm_cast
  unfold mins2hhmm
  rw [if_neg hne, hd, hm, fmt02d_two_digits (x / 100) (by omega),
    fmt02d_two_digits (x % 100) (Nat.mod_lt _ (by norm_num))]
  have h1 : x / 100 / 10 = x / 1000 := by omega
  have h2 : x % 100 % 10 = x % 10 := by omega
  simp [h1, h2]

/-- C11 (the claim as stated fails): the field value 90, which as minutes since
midnight is the time 01:30, is rendered as the text `00:90`. -/
theorem mins2hhmm_not_minutes :
    mins2hhmm 90 = ofString "00:90" ∧ hhmmOfMinutes 90 = ofString "01:30" ∧
    mins2hhmm 90 ≠ hhmmOfMinutes 90 := by
  decide

/-- C11 (amended): `mins2hhmm(0xFFFF)` is the empty string, and for every other field
value `x` with `0 <= x < 10000` (so for `0 <= x < 1440` too) `mins2hhmm(x)` is the
five-character text of two-digit `x div 100`, a colon and two-digit `x mod 100`; a
field that holds the time `h:m` as `100 * h + m` is rendered as `HH:MM`; the text is
never blank for such a value, 0 is rendered as `00:00`, and the two time fields of
`writepacket` with bytes 0xFF 0xFF are blank. -/
theorem mins2hhmm_render (x : Nat) (hx : x < 10000) :
    mins2hhmm 0xFFFF = [] ∧
    mins2hhmm (x : Int) = fmt02d ((x / 100 : Nat) : Int) ++ [58] ++ fmt02d ((x % 100 : Nat) : Int) ∧
    mins2hhmm (x : Int)
      = [48 + x / 100 / 10, 48 + x / 100 % 10, 58, 48 + x % 100 / 10, 48 + x % 100 % 10] ∧
    (mins2hhmm (x : Int)).length = 5 ∧ mins2hhmm (x : Int) ≠ [] ∧
    (∀ h m : Nat, h < 24 → m < 60 → x = 100 * h + m →
      mins2hhmm (x : Int) = [48 + h / 10, 48 + h % 10, 58, 48 + m / 10, 48 + m % 10]) ∧
    mins2hhmm 0 = ofString "00:00" ∧
    (∀ data : Nat → Nat, data 91 = 0xFF → data 92 = 0xFF → data 93 = 0xFF → data 94 = 0xFF →
      writepacketTimes data = ([], [])) := by
  have hdig := mins2hhmm_digits x hx
  have h1 : x / 100 / 10 = x / 1000 := by omega
  have h2 : x % 100 % 10 = x % 10 := by omega
  refine ⟨by decide, ?_, ?_, ?_, ?_, ?_, by decide, ?_⟩
  · rw [hdig, fmt02d_two_digits (x / 100) (by omega),
      fmt02d_two_digits (x % 100) (Nat.mod_lt _ (by norm_num)), h1, h2]
    rfl
  · rw [hdig, h1, h2]
  · rw [hdig]
    rfl
  · rw [hdig]
    simp
  · intro h m hh hm hxe
    rw [hdig]
    subst hxe
    have e1 : (100 * h + m) / 1000 = h / 10 := by omega
    have e2 : (100 * h + m) / 100 % 10 = h % 10 := by omega
    have e3 : (100 * h + m) % 100 / 10 = m / 10 := by omega
    have e4 : (100 * h + m) % 10 = m % 10 := by omega
    rw [e1, e2, e3, e4]
  · intro data a b c d
    unfold writepacketTimes
    rw [a, b, c, d]
    decide

/-- Witness of C11 (amended): the field value 1430 is rendered as `14:30`. -/
theorem mins2hhmm_render_witness :
    (1430 : Nat) < 10000 ∧ mins2hhmm ((1430 : Nat) : Int) = ofString "14:30" :=
  ⟨by decide, ((mins2hhmm_render 1430 (by decide)).2.2.1).trans (by decide)⟩

/-! ### Storm start -/

theorem shiftRight_and (a b i : Nat) : (a &&& b) >>> i = (a >>> i) &&& (b >>> i) := by
  apply Nat.eq_of_testBit_eq
  intro j
  simp only [Nat.testBit_shiftRight, Nat.testBit_and]

theorem and_30 : ∀ r < 32, r &&& 30 = 2 * (r / 2) := by decide

theorem and_62 : ∀ r < 64, r &&& 62 = 2 * (r / 2) := by decide

/-- The month expression of `stormstart` gives twice the 4-bit month field. -/
theorem stormstart_mon (v : Nat) : (v &&& 0xF000) >>> (12 - 1) = 2 * (v / 4096 % 16) := by
  have h1 : (v &&& 0xF000) >>> (12 - 1) = (v >>> 11) &&& 30 := shiftRight_and v 0xF000 11
  have h2 : (v >>> 11) &&& 30 = ((v >>> 11) &&& 31) &&& 30 := by
    rw [Nat.and_assoc]
    rfl
  have h3 : (v >>> 11) &&& 31 = (v >>> 11) % 32 := Nat.and_pow_two_sub_one_eq_mod _ 5
  rw [h1, h2, h3, and_30 _ (Nat.mod_lt _ (by norm_num)), Nat.shiftRight_eq_div_pow]
  omega

/-- The day expression of `stormstart` gives twice the 5-bit day field. -/
theorem stormstart_mday (v : Nat) : (v &&& 0xf80) >>> 6 = 2 * (v / 128 % 32) := by
  have h1 : (v &&& 0xf80) >>> 6 = (v >>> 6) &&& 62 := shiftRight_and v 0xf80 6
  have h2 : (v >>> 6) &&& 62 = ((v >>> 6) &&& 63) &&& 62 := by
    rw [Nat.and_assoc]
    rfl
  have h3 : (v >>> 6) &&& 63 = (v >>> 6) % 64 := Nat.and_pow_two_sub_one_eq_mod _ 6
  rw [h1, h2, h3, and_62 _ (Nat.mod_lt _ (by norm_num)), Nat.shiftRight_eq_div_pow]
  omega

/-- The packed value as a sum. -/
theorem packStorm_eq (m d y : Nat) (hd : d < 32) (hy : y < 128) :
    packStorm m d y = m * 4096 + d * 128 + y := by
  unfold packStorm
  have h1 : m <<< 12 ||| d <<< 7 = 2 ^ 12 * m + d * 128 := by
    rw [Nat.shiftLeft_eq, Nat.shiftLeft_eq, Nat.mul_comm m (2 ^ 12)]
    exact (Nat.mul_add_lt_is_or (by omega) m).symm
  have h2 : 2 ^ 12 * m + d * 128 = 2 ^ 7 * (32 * m + d) := by ring
  rw [h1, h2, ← Nat.mul_add_lt_is_or (by omega)]
  ring

/-- For every month, day and year offset of the packed layout, `stormstart` passes to
`mktime` twice the month as `tm_mon` and twice the day as `tm_mday`; only the year is
what the layout says. -/
theorem stormstart_doubles (tm : Tm) (m d y : Nat) (hm : m < 16) (hd : d < 32) (hy : y < 128) :
    stormstart tm (packStorm m d y)
      = toInt32 ((mktime (setDate tm ((2 * m : Nat) : Int) ((2 * d : Nat) : Int)
          ((y + 100 : Nat) : Int))).tdiv 86400 - 10957) := by
  have e1 : (packStorm m d y &&& 0xF000) >>> (12 - 1) = 2 * m := by
    rw [stormstart_mon, packStorm_eq m d y hd hy]
    omega
  have e2 : (packStorm m d y &&& 0xf80) >>> 6 = 2 * d := by
    rw [stormstart_mday, packStorm_eq m d y hd hy]
    omega
  have e3 : packStorm m d y &&& 0x07F = y := by
    rw [show (0x07F : Nat) = 2 ^ 7 - 1 from rfl, Nat.and_pow_two_sub_one_eq_mod,
      packStorm_eq m d y hd hy]
    omega
  unfold stormstart
  rw [e1, e2, e3]

/-- C12 (evaluation of the code): for 1 January 2000, packed as 0x1080, the day count
of the claim is 0, but `stormstart` takes month index 2 and day 2 (2 March 2000) and
returns 61; for 15 June 2024, packed as 0x6798, the day count of the claim is 8932 and
`stormstart` returns 9161. -/
theorem stormstart_first_of_january :
    packStorm 1 1 0 = 0x1080 ∧ daysSince2000 1 1 0 = 0 ∧ stormstart midnight 0x1080 = 61 ∧
    (0x1080 &&& 0xF000) >>> (12 - 1) = 2 ∧ (0x1080 &&& 0xf80) >>> 6 = 2 ∧
    packStorm 6 15 24 = 0x6798 ∧ daysSince2000 6 15 24 = 8932 ∧
    stormstart midnight 0x6798 = 9161 := by
  decide

end Davis
